import Mathlib

/-!
Verification of the background execution engine of the `extension-redis`
fault-injection extension.

The Go source is shallowly embedded: each Go function that a claim touches
is translated into a pure Lean function.  Go `map[string]T` registries become
association lists with first-match lookup, the Redis keyspace becomes a list
of key strings, wall-clock time becomes an explicit `Int`/`Nat` parameter,
background goroutine loops become fuel-indexed recursive functions whose
channel receives are modelled by a boolean signal indexed by a global
check counter, and `float64` metric arithmetic is modelled by `ℚ`.
-/

namespace ExtRedis

/-! ## Go map registries (attack_big_key.go `runningAttacks`,
part_004 `cachePenetrationCancels`, part_005 `activeConnections`)

A Go `map[string]α` guarded by a mutex is modelled as an association list
with first-match lookup.  `m[k] = v` replaces the binding if present and
otherwise appends; `delete(m, k)` removes the binding; `m[k]` with the
comma-ok idiom is `mapLookup`. -/

abbrev Reg (α : Type) : Type := List (String × α)

def mapLookup {α : Type} : Reg α → String → Option α
  | [], _ => none
  | (k', v) :: rest, k => if k' = k then some v else mapLookup rest k

def mapInsert {α : Type} : Reg α → String → α → Reg α
  | [], k, v => [(k, v)]
  | (k', v') :: rest, k, v =>
      if k' = k then (k, v) :: rest else (k', v') :: mapInsert rest k v

def mapDelete {α : Type} : Reg α → String → Reg α
  | [], _ => []
  | (k', v') :: rest, k =>
      if k' = k then mapDelete rest k else (k', v') :: mapDelete rest k

/-! ## Redis keyspace

Only key presence matters to the claims, so the target keyspace is the list
of keys currently set.  `SET` adds a key (Redis overwrites the value of an
existing key, which leaves presence unchanged), `DEL` removes it; `DEL` of
an absent key succeeds with a 0 count, mirroring Redis semantics.  `SCAN`
with pattern `pref*` enumerates the keys starting with `pref`. -/

def storeSet (s : List String) (k : String) : List String :=
  if k ∈ s then s else s ++ [k]

def storeDel (s : List String) (k : String) : List String :=
  s.filter (fun x => x != k)

/-- Byte-level prefix test of the Go source (`strings.HasPrefix` /
`key[:n] == url` slicing), modelled on the character list of the string
(the keys involved are ASCII, where the two coincide). -/
def strHasPref (s pre : String) : Bool := pre.toList.isPrefixOf s.toList

def storeScan (s : List String) (pref : String) : List String :=
  s.filter (fun x => strHasPref x pref)

/-! ## Memory-fill attack (attack_memory_fill.go)

`fillMemory` (lines 156-211) is the background worker loop.  It computes a
per-write delay from the configured fill rate, then loops while
`time.Now() < state.EndTime`, breaking additionally when the configured
byte cap is reached.  Each iteration performs one `SET` (a tick); on a
failed `SET` it backs off 100ms and retries the same key; on success it
advances by the computed delay.  The loop has no stop channel, no context
cancellation and no other input through which a concurrent `Stop` call
could reach it.  The model returns the wall-clock times (milliseconds) at
which the ticks (SET attempts) happen; the source compares whole Unix
seconds, which the millisecond clock refines. -/

structure FillCfg where
  endTime : Nat
  maxBytes : Nat
  valueSize : Nat
  delay : Nat
deriving Repr, DecidableEq

def fillDelay (fillRate valueSize : Nat) : Nat :=
  let bytesPerSecond := fillRate * 1024 * 1024
  let writesPerSecond := bytesPerSecond / valueSize
  let writesPerSecond := if writesPerSecond < 1 then 1 else writesPerSecond
  1000 / writesPerSecond

def fillLoop (cfg : FillCfg) (setOk : Nat → Bool) :
    Nat → Nat → Nat → Nat → List Nat
  | 0, _, _, _ => []
  | fuel + 1, now, totalBytes, keyCounter =>
      if now < cfg.endTime then
        if cfg.maxBytes > 0 ∧ totalBytes ≥ cfg.maxBytes then []
        else if setOk keyCounter then
          now :: fillLoop cfg setOk fuel (now + cfg.delay)
            (totalBytes + cfg.valueSize) (keyCounter + 1)
        else
          now :: fillLoop cfg setOk fuel (now + 100) totalBytes keyCounter
      else []

/-- Cleanup fold step shared by the stop routines: one `DEL` call per key,
counting the deletes whose call returned no error (`delOk`); a failed `DEL`
leaves the key in place and is only logged. -/
def delStep (delOk : String → Bool) (acc : List String × Nat) (k : String) :
    List String × Nat :=
  if delOk k then (storeDel acc.1 k, acc.2 + 1) else acc

/-- Memory-fill `Stop` (lines 254-280): create a cleanup client (returning a
Go error when that fails), then delete exactly the keys recorded in
`state.CreatedKeys`, counting a success for every `DEL` whose call returns
no error (including deletes of absent keys).  There is no scan by prefix. -/
def memFillStop (createOk : Bool) (delOk : String → Bool)
    (store createdKeys : List String) : List String × Bool × Nat :=
  if !createOk then (store, true, 0)
  else
    let r := createdKeys.foldl (delStep delOk) (store, 0)
    (r.1, false, r.2)

/-- Shape of a memory-fill `Status` result (lines 222-252): the Go error is
nil on every path; when the client cannot be created the result carries only
the `Completed` flag, otherwise an informational message is attached.  No
path attaches an ActionKitError. -/
structure MemFillStatusRes where
  completed : Bool
  goError : Bool
  failedMarker : Bool
  infoMessage : Bool
deriving Repr, DecidableEq

def memFillStatus (now endTime : Int) (createOk : Bool) : MemFillStatusRes :=
  let completed := now ≥ endTime
  if !createOk then ⟨completed, false, false, false⟩
  else ⟨completed, false, false, true⟩

/-! ## Big-key attack worker loop (attack_big_key.go, `runBigKeyCycles`, lines 227-326)

The loop repeatedly: checks `stats.stopChan` at its head, creates a client
(on failure records the error, sleeps one second and retries), creates
`numKeys` big keys — re-checking `stopChan` before each `SET` and deleting
the keys created so far when it fires — holds them 500ms (a select between
`stopChan` and the timer), deletes them, then pauses 100ms (again a select).
The closed `stopChan` is level-triggered: once closed every later receive
fires.  It is modelled by a boolean signal `sig` indexed by a global check
counter `chk` that advances at every point where the source evaluates a
`select` on `stopChan`; level-triggering is the monotonicity hypothesis on
`sig`.  `EndTime` is never consulted by this loop.  Ticks are the `SET`
attempts; each carries the index of the check that guarded it. -/

inductive BKEvent where
  | set (chk : Nat) (cycle : Nat) (key : Nat)
  | del (cycle : Nat) (key : Nat)
deriving Repr, DecidableEq

structure BKCreateRes where
  events : List BKEvent
  created : List Nat
  chk : Nat
  stopped : Bool
deriving Repr, DecidableEq

/-- Inner key-creation loop (lines 252-278): before each `SET` the source
selects on `stopChan`; when it fires the keys created so far in this cycle
are deleted and the goroutine returns.  A failed `SET` skips the key
(`continue`) without stopping the cycle. -/
def bkCreate (sig : Nat → Bool) (setOk : Nat → Nat → Bool) (cycle : Nat) :
    Nat → Nat → Nat → List Nat → BKCreateRes
  | 0, _, chk, created => ⟨[], created, chk, false⟩
  | rem + 1, i, chk, created =>
      if sig chk then
        ⟨created.map (fun k => BKEvent.del cycle k), created, chk + 1, true⟩
      else if setOk cycle i then
        let r := bkCreate sig setOk cycle rem (i + 1) (chk + 1) (created ++ [i])
        ⟨BKEvent.set chk cycle i :: r.events, r.created, r.chk, r.stopped⟩
      else
        let r := bkCreate sig setOk cycle rem (i + 1) (chk + 1) created
        ⟨BKEvent.set chk cycle i :: r.events, r.created, r.chk, r.stopped⟩

/-- Outer cycle loop (lines 231-326).  `clientOk` models per-attempt client
creation, `fuel` bounds the number of iterations of the unbounded Go `for`.
The loop exits only through one of the four `stopChan` receives; no branch
consults any deadline. -/
def bkLoop (sig : Nat → Bool) (setOk : Nat → Nat → Bool) (clientOk : Nat → Bool)
    (num : Nat) : Nat → Nat → Nat → List BKEvent
  | 0, _, _ => []
  | fuel + 1, chk, cycle =>
      if sig chk then []
      else if !clientOk chk then
        bkLoop sig setOk clientOk num fuel (chk + 1) cycle
      else
        let c := bkCreate sig setOk cycle num 0 (chk + 1) []
        if c.stopped then c.events
        else if sig c.chk then
          c.events ++ c.created.map (fun k => BKEvent.del cycle k)
        else
          let dels := c.created.map (fun k => BKEvent.del cycle k)
          if sig (c.chk + 1) then c.events ++ dels
          else c.events ++ dels ++
            bkLoop sig setOk clientOk num fuel (c.chk + 2) (cycle + 1)

/-! ## Big-key attack registration and stop -/

structure BKStats where
  stopClosed : Bool
  cycleCount : Nat
  totalCreated : Nat
  totalDeleted : Nat
deriving Repr, DecidableEq

def bkNewStats : BKStats := ⟨false, 0, 0, 0⟩

/-- Big-key `Start` registration (lines 206-212): under the mutex the source
performs the plain assignment `runningAttacks[state.ExecutionId] = stats`.
There is no presence check and no error path. -/
def bkRegister (reg : Reg BKStats) (execId : String) (stats : BKStats) :
    Reg BKStats :=
  mapInsert reg execId stats

structure BKStopRes where
  closedSignal : Bool
  doubleClose : Bool
  goError : Bool
  cleanedUp : Nat
deriving Repr, DecidableEq

/-- Big-key `Stop` (lines 386-453): under the mutex, look the execution up;
when present, close its stop channel (recorded in `closedSignal`;
`doubleClose` records the close-of-closed-channel panic case, which the
presence guard makes unreachable) and delete the registry entry.  Then,
after the grace sleep, create a cleanup client — on failure the call still
returns a warning result and a nil Go error — and `SCAN` for every key
matching `KeyPrefix*`, deleting each; scan and delete failures are logged
and skipped.  The cursor-batched scan is modelled as one enumeration of the
matching keys guarded by `scanOk`.  No path returns a Go error. -/
def bigKeyStop (reg : Reg BKStats) (execId : String) (createOk scanOk : Bool)
    (delOk : String → Bool) (store : List String) (pref : String) :
    Reg BKStats × List String × BKStopRes :=
  let lk := mapLookup reg execId
  let closed := lk.isSome
  let dbl := match lk with
    | some st => st.stopClosed
    | none => false
  let reg' := match lk with
    | some _ => mapDelete reg execId
    | none => reg
  if !createOk then (reg', store, ⟨closed, dbl, false, 0⟩)
  else if !scanOk then (reg', store, ⟨closed, dbl, false, 0⟩)
  else
    let keys := storeScan store pref
    let r := keys.foldl (delStep delOk) (store, 0)
    (reg', r.1, ⟨closed, dbl, false, r.2⟩)

/-! ## Cache-penetration attack stop (part_004, lines 200-225) -/

structure CPStopRes where
  cancelCalled : Bool
  goError : Bool
  totalRequests : Int
deriving Repr, DecidableEq

/-- Cache-penetration `Stop`: under the mutex, read the cancel function and
counter for the attack key and delete both map entries (deleting an absent
key is a no-op); afterwards invoke the cancel function only when the lookup
found one.  The call never returns a Go error. -/
def cachePenStop (cancels : Reg Unit) (counts : Reg Int) (attackKey : String) :
    Reg Unit × Reg Int × CPStopRes :=
  let cancel := mapLookup cancels attackKey
  let counter := mapLookup counts attackKey
  let cancels' := mapDelete cancels attackKey
  let counts' := mapDelete counts attackKey
  let total := match counter with
    | some c => c
    | none => 0
  (cancels', counts', ⟨cancel.isSome, false, total⟩)

/-! ## Maxmemory-limit attack stop (attack_maxmemory_limit.go, lines 242-289) -/

structure MMStopRes where
  goError : Bool
  warned : Bool
deriving Repr, DecidableEq

/-- Maxmemory `Stop`: a failed client creation returns a Go error; otherwise
each of the two `CONFIG SET` restores is attempted independently (skipping
`maxmemory` when no original was captured and the policy when the `keep`
sentinel was chosen), failures are collected into a warning message and the
call returns no Go error. -/
def maxmemStop (createOk : Bool) (origMaxmemory origPolicy newPolicy : String)
    (setMaxOk setPolOk : Bool) : MMStopRes :=
  if !createOk then ⟨true, false⟩
  else
    let maxErr := origMaxmemory ≠ "" ∧ setMaxOk = false
    let polErr := origPolicy ≠ "" ∧ newPolicy ≠ "keep" ∧ setPolOk = false
    ⟨false, decide maxErr || decide polErr⟩

/-! ## Connection-exhaustion attack registry (part_005, lines 378-553) -/

/-- Connection-exhaustion `Start` registration (lines 421-424): plain map
assignment of the freshly opened connection list under the nonce key
`fmt.Sprintf("%s-%d", state.RedisURL, time.Now().UnixNano())`. -/
def connExhRegister (reg : Reg (List Nat)) (attackKey : String)
    (conns : List Nat) : Reg (List Nat) :=
  mapInsert reg attackKey conns

/-- Key selection of connection-exhaustion `Stop` (lines 519-526): iterate
the registry and take the first key with `len(key) > len(state.RedisURL)`
whose byte prefix of that length equals the URL.  The state does not record
the attack key itself, so the caller's identity plays no role.  Go's
randomized map iteration order is modelled by the list order, one possible
iteration order. -/
def connExhFindKey (reg : Reg (List Nat)) (url : String) : Option String :=
  match reg with
  | [] => none
  | (k, _) :: rest =>
      if k.length > url.length ∧ strHasPref k url then some k
      else connExhFindKey rest url

/-- Connection-exhaustion `Stop` (lines 517-553): remove the first
URL-matching entry and close its connections; absent a match, nothing
happens.  The call never returns a Go error. -/
def connExhStop (reg : Reg (List Nat)) (url : String) :
    Reg (List Nat) × List Nat :=
  match connExhFindKey reg url with
  | none => (reg, [])
  | some k =>
      let conns := match mapLookup reg k with
        | some c => c
        | none => []
      (mapDelete reg k, conns)

/-! ## Connection-count check status (check_connections.go, lines 157-257)

`float64` percentage arithmetic is modelled by `ℚ`; the metric list is
dropped.  `failed` stands for the result carrying an `ActionKitError` with
status `Failed`, `warned` for a warning message. -/

structure ConnCheckState where
  maxConnections : Int
  maxConnectionsPct : ℚ
  endTime : Int
  thresholdExceeded : Bool
  maxObserved : Int
deriving Repr, DecidableEq

structure CheckOutcome where
  completed : Bool
  goError : Bool
  failed : Bool
  warned : Bool
deriving Repr, DecidableEq

def connCheckStatus (s : ConnCheckState) (now : Int) (createOk infoOk : Bool)
    (connectedClients maxClients : Int) : ConnCheckState × CheckOutcome :=
  let completed : Bool := decide (now ≥ s.endTime)
  if !createOk then (s, ⟨completed, false, true, false⟩)
  else if !infoOk then (s, ⟨completed, false, true, false⟩)
  else
    let s1 := if connectedClients > s.maxObserved then
        { s with maxObserved := connectedClients } else s
    let pctViol : Bool := decide (s1.maxConnectionsPct > 0 ∧ maxClients > 0 ∧
        (connectedClients : ℚ) / (maxClients : ℚ) * 100 > s1.maxConnectionsPct)
    let absViol : Bool := decide (s1.maxConnections > 0 ∧
        connectedClients > s1.maxConnections)
    let viol := pctViol || absViol
    let s2 := if viol then { s1 with thresholdExceeded := true } else s1
    if completed && s2.thresholdExceeded then (s2, ⟨completed, false, true, false⟩)
    else (s2, ⟨completed, false, false, viol⟩)

/-! ## Cache hit-rate check status (part_000, lines 182-306) -/

structure HitRateState where
  minHitRate : ℚ
  endTime : Int
  thresholdExceeded : Bool
  minObservedRate : ℚ
  lastHits : Int
  lastMisses : Int
  firstCheck : Bool
deriving Repr, DecidableEq

structure HitRateRes where
  completed : Bool
  goError : Bool
  failed : Bool
  warned : Bool
  hitRate : ℚ
deriving Repr, DecidableEq

/-- Cache hit-rate `Status`: on the first poll the cumulative hit rate is
used, afterwards the delta against the previous poll; a non-positive total
yields the 100% default.  A rate below `MinHitRate` marks the persisted
`ThresholdExceeded` flag and warns; the hard failure is emitted only when
`completed` and the flag are both set.  The unreachable-client and
failed-INFO paths return an `ActionKitError` with status `Failed` and a nil
Go error. -/
def hitRateStatus (s : HitRateState) (now : Int) (createOk infoOk : Bool)
    (currentHits currentMisses : Int) : HitRateState × HitRateRes :=
  let completed : Bool := decide (now ≥ s.endTime)
  if !createOk then (s, ⟨completed, false, true, false, 0⟩)
  else if !infoOk then (s, ⟨completed, false, true, false, 0⟩)
  else
    let hitRate : ℚ :=
      if s.firstCheck then
        let total := currentHits + currentMisses
        if total > 0 then (currentHits : ℚ) / (total : ℚ) * 100 else 100
      else
        let intervalHits := currentHits - s.lastHits
        let intervalMisses := currentMisses - s.lastMisses
        let intervalTotal := intervalHits + intervalMisses
        if intervalTotal > 0 then
          (intervalHits : ℚ) / (intervalTotal : ℚ) * 100 else 100
    let s1 := if s.firstCheck then { s with firstCheck := false } else s
    let s2 := { s1 with lastHits := currentHits, lastMisses := currentMisses }
    let s3 := if hitRate < s2.minObservedRate then
        { s2 with minObservedRate := hitRate } else s2
    let viol : Bool := decide (hitRate < s3.minHitRate)
    let s4 := if viol then { s3 with thresholdExceeded := true } else s3
    if completed && s4.thresholdExceeded then (s4, ⟨completed, false, true, false, hitRate⟩)
    else (s4, ⟨completed, false, false, viol, hitRate⟩)

/-! ## Theorems -/

theorem mapLookup_insert_self {α : Type} (m : Reg α) (k : String) (v : α) :
    mapLookup (mapInsert m k v) k = some v := by
  induction m with
  | nil => simp [mapInsert, mapLookup]
  | cons hd tl ih =>
      obtain ⟨k', v'⟩ := hd
      by_cases h : k' = k
      · simp [mapInsert, mapLookup, h]
      · simp [mapInsert, mapLookup, h, ih]

theorem mapLookup_insert_other {α : Type} (m : Reg α) (k k' : String) (v : α)
    (h : k ≠ k') : mapLookup (mapInsert m k v) k' = mapLookup m k' := by
  induction m with
  | nil => simp [mapInsert, mapLookup, h]
  | cons hd tl ih =>
      obtain ⟨k₀, v₀⟩ := hd
      by_cases h₀ : k₀ = k
      · subst h₀
        simp [mapInsert, mapLookup, h]
      · simp [mapInsert, mapLookup, h₀, ih]

theorem mapLookup_delete_self {α : Type} (m : Reg α) (k : String) :
    mapLookup (mapDelete m k) k = none := by
  induction m with
  | nil => simp [mapDelete, mapLookup]
  | cons hd tl ih =>
      obtain ⟨k₀, v₀⟩ := hd
      by_cases h₀ : k₀ = k
      · simp [mapDelete, h₀, ih]
      · simp [mapDelete, mapLookup, h₀, ih]

theorem mapLookup_delete_other {α : Type} (m : Reg α) (k k' : String)
    (h : k ≠ k') : mapLookup (mapDelete m k) k' = mapLookup m k' := by
  induction m with
  | nil => simp [mapDelete, mapLookup]
  | cons hd tl ih =>
      obtain ⟨k₀, v₀⟩ := hd
      by_cases h₀ : k₀ = k
      · subst h₀
        simp only [mapDelete, if_true, ite_true, if_pos trivial]
        rw [ih, mapLookup, if_neg h]
      · simp [mapDelete, mapLookup, h₀, ih]

theorem mapDelete_absent {α : Type} (m : Reg α) (k : String)
    (h : mapLookup m k = none) : mapDelete m k = m := by
  induction m with
  | nil => rfl
  | cons hd tl ih =>
      obtain ⟨k₀, v₀⟩ := hd
      by_cases h₀ : k₀ = k
      · simp [mapLookup, h₀] at h
      · simp only [mapLookup, if_neg h₀] at h
        simp [mapDelete, h₀, ih h]

theorem storeDel_absent (s : List String) (k : String) (h : k ∉ s) :
    storeDel s k = s := by
  induction s with
  | nil => rfl
  | cons hd tl ih =>
      simp only [List.mem_cons, not_or] at h
      simp only [storeDel, List.filter_cons] at ih ⊢
      have : (hd != k) = true := by simpa [bne] using fun e => h.1 e.symm
      rw [this]
      simp only [if_true, ite_true, if_pos trivial]
      exact congrArg (hd :: ·) (ih h.2)

theorem mem_storeDel (s : List String) (k x : String) :
    x ∈ storeDel s k ↔ x ∈ s ∧ x ≠ k := by
  simp [storeDel, List.mem_filter, bne_iff_ne]

theorem bkCreate_set_guard (sig : Nat → Bool) (setOk : Nat → Nat → Bool)
    (cycle : Nat) :
    ∀ rem i chk created g cyc k,
      BKEvent.set g cyc k ∈ (bkCreate sig setOk cycle rem i chk created).events →
      sig g = false := by
  intro rem
  induction rem with
  | zero => intro i chk created g cyc k h; simp [bkCreate] at h
  | succ rem ih =>
      intro i chk created g cyc k h
      by_cases hs : sig chk
      · simp only [bkCreate, if_pos hs] at h
        obtain ⟨k', _, he⟩ := List.mem_map.mp h
        cases he
      · by_cases hok : setOk cycle i
        · simp only [bkCreate, if_neg hs, if_pos hok, List.mem_cons] at h
          rcases h with h | h
          · cases h; exact eq_false_of_ne_true hs
          · exact ih (i + 1) (chk + 1) (created ++ [i]) g cyc k h
        · simp only [bkCreate, if_neg hs, if_neg hok, List.mem_cons] at h
          rcases h with h | h
          · cases h; exact eq_false_of_ne_true hs
          · exact ih (i + 1) (chk + 1) created g cyc k h

theorem bkLoop_set_guard (sig : Nat → Bool) (setOk : Nat → Nat → Bool)
    (clientOk : Nat → Bool) (num : Nat) :
    ∀ fuel chk cycle g cyc k,
      BKEvent.set g cyc k ∈ bkLoop sig setOk clientOk num fuel chk cycle →
      sig g = false := by
  intro fuel
  induction fuel with
  | zero => intro chk cycle g cyc k h; simp [bkLoop] at h
  | succ fuel ih =>
      intro chk cycle g cyc k h
      by_cases hs : sig chk
      · simp [bkLoop, hs] at h
      · simp only [bkLoop, if_neg hs] at h
        by_cases hc : clientOk chk
        · simp only [hc, Bool.not_true, Bool.false_eq_true, if_false, ite_false] at h
          set c := bkCreate sig setOk cycle num 0 (chk + 1) [] with hcdef
          by_cases hst : c.stopped
          · simp only [hst, if_true, ite_true, if_pos trivial] at h
            exact bkCreate_set_guard sig setOk cycle num 0 (chk + 1) [] g cyc k h
          · simp only [hst, Bool.false_eq_true, if_false, ite_false] at h
            by_cases hh : sig c.chk
            · simp only [hh, if_true, ite_true, if_pos trivial, List.mem_append] at h
              rcases h with h | h
              · exact bkCreate_set_guard sig setOk cycle num 0 (chk + 1) [] g cyc k h
              · obtain ⟨k', _, he⟩ := List.mem_map.mp h; cases he
            · simp only [hh, Bool.false_eq_true, if_false, ite_false] at h
              by_cases hp : sig (c.chk + 1)
              · simp only [hp, if_true, ite_true, if_pos trivial, List.mem_append] at h
                rcases h with h | h
                · exact bkCreate_set_guard sig setOk cycle num 0 (chk + 1) [] g cyc k h
                · obtain ⟨k', _, he⟩ := List.mem_map.mp h; cases he
              · simp only [hp, Bool.false_eq_true, if_false, ite_false,
                  List.mem_append] at h
                rcases h with (h | h) | h
                · exact bkCreate_set_guard sig setOk cycle num 0 (chk + 1) [] g cyc k h
                · obtain ⟨k', _, he⟩ := List.mem_map.mp h; cases he
                · exact ih (c.chk + 2) (cycle + 1) g cyc k h
        · simp only [hc, Bool.not_false, if_true, ite_true, if_pos trivial] at h
          exact ih (chk + 1) cycle g cyc k h

/-- Once the stop signal has fired, the loop head returns immediately and
performs nothing further. -/
theorem bkLoop_stopped (sig : Nat → Bool) (setOk : Nat → Nat → Bool)
    (clientOk : Nat → Bool) (num fuel chk cycle : Nat) (h : sig chk = true) :
    bkLoop sig setOk clientOk num (fuel + 1) chk cycle = [] := by
  simp [bkLoop, h]

/-! ## Helper lemmas about the cleanup fold -/

theorem foldl_delStep_mem (delOk : String → Bool) (keys : List String) :
    ∀ (store : List String) (n : Nat) (x : String),
      (∀ k ∈ keys, delOk k = true) →
      (x ∈ (keys.foldl (delStep delOk) (store, n)).1 ↔ x ∈ store ∧ x ∉ keys) := by
  induction keys with
  | nil => intro store n x _; simp
  | cons k rest ih =>
      intro store n x hdel
      have hk : delOk k = true := hdel k (List.mem_cons_self k rest)
      have hrest : ∀ k' ∈ rest, delOk k' = true :=
        fun k' hk' => hdel k' (List.mem_cons_of_mem k hk')
      simp only [List.foldl_cons, delStep, hk, if_true, ite_true, if_pos trivial]
      rw [ih (storeDel store k) (n + 1) x hrest, mem_storeDel]
      simp only [List.mem_cons, not_or]
      tauto

theorem foldl_delStep_absent (delOk : String → Bool) (keys : List String) :
    ∀ (store : List String) (n : Nat),
      (∀ k ∈ keys, k ∉ store) →
      (keys.foldl (delStep delOk) (store, n)).1 = store := by
  induction keys with
  | nil => intro store n _; rfl
  | cons k rest ih =>
      intro store n habs
      have hk : k ∉ store := habs k (List.mem_cons_self k rest)
      have hrest : ∀ k' ∈ rest, k' ∉ store :=
        fun k' hk' => habs k' (List.mem_cons_of_mem k hk')
      simp only [List.foldl_cons, delStep]
      by_cases hok : delOk k
      · simp only [hok, if_true, ite_true, if_pos trivial, storeDel_absent store k hk]
        exact ih store (n + 1) hrest
      · simp only [hok, Bool.false_eq_true, if_false, ite_false]
        exact ih store n hrest

/-! ## Claim C1 -/

/-- C1, counterexample.  Memory-fill `Stop` performs no cancellation
signalling at all (attack_memory_fill.go lines 254-280 only delete keys) and
`fillMemory` has no cancellation input, so a stop call leaves the loop
ticking.  Concretely: with the stop call happening at time 1000 and the
backoff/delay interval at 100, the loop (deadline 2000) still ticks at
1300 > 1000 + 100, violating "stops performing ticks within one backoff
interval". -/
theorem C1_counterexample :
    fillLoop ⟨2000, 0, 1, 100⟩ (fun _ => true) 5 1000 0 0 =
      [1000, 1100, 1200, 1300, 1400] ∧
    (1300 : Nat) ∈ fillLoop ⟨2000, 0, 1, 100⟩ (fun _ => true) 5 1000 0 0 ∧
    1000 + 100 < 1300 :=
  ⟨by decide, by decide, by decide⟩

/-- C1, amended: the big-key loop guards every tick (`SET`) with a receive
on the level-triggered stop channel, so once cancellation is signalled no
further tick is performed — every tick's guard index precedes the signal;
the memory-fill loop, however, has no cancellation input and keeps ticking
whenever its deadline and byte cap allow, whatever any stop call does. -/
theorem C1_cancellation_observed :
    (∀ (sig : Nat → Bool) (setOk : Nat → Nat → Bool) (clientOk : Nat → Bool)
        (num fuel chk cycle n : Nat),
        (∀ i j, i ≤ j → sig i = true → sig j = true) → sig n = true →
        ∀ g cyc k, BKEvent.set g cyc k ∈ bkLoop sig setOk clientOk num fuel chk cycle →
          g < n)
    ∧ (∀ (cfg : FillCfg) (setOk : Nat → Bool) (fuel now totalBytes keyCounter : Nat),
        now < cfg.endTime → (cfg.maxBytes = 0 ∨ totalBytes < cfg.maxBytes) →
        ∃ tail, fillLoop cfg setOk (fuel + 1) now totalBytes keyCounter = now :: tail) := by
  constructor
  · intro sig setOk clientOk num fuel chk cycle n hmono hn g cyc k hmem
    have hg := bkLoop_set_guard sig setOk clientOk num fuel chk cycle g cyc k hmem
    by_contra hlt
    have : sig g = true := hmono n g (Nat.le_of_not_lt hlt) hn
    rw [hg] at this
    exact Bool.false_ne_true this
  · intro cfg setOk fuel now totalBytes keyCounter h1 h2
    have hmb : ¬(cfg.maxBytes > 0 ∧ totalBytes ≥ cfg.maxBytes) := by
      rcases h2 with h2 | h2 <;> (intro hc; omega)
    by_cases hok : setOk keyCounter
    · refine ⟨fillLoop cfg setOk fuel (now + cfg.delay) (totalBytes + cfg.valueSize)
        (keyCounter + 1), ?_⟩
      simp [fillLoop, h1, hmb, hok]
    · refine ⟨fillLoop cfg setOk fuel (now + 100) totalBytes keyCounter, ?_⟩
      simp [fillLoop, h1, hmb, hok]

set_option maxRecDepth 8192 in
/-- C1 witness: instantiating both halves — a concrete big-key run whose
only tick is guarded before the signal fires at check 3, and a concrete
memory-fill state that keeps ticking. -/
theorem C1_witness :
    (1 : Nat) < 3 ∧
      ∃ tail, fillLoop ⟨2000, 0, 1, 100⟩ (fun _ => true) 5 1000 0 0 = 1000 :: tail := by
  constructor
  · exact C1_cancellation_observed.1 (fun i => decide (3 ≤ i)) (fun _ _ => true)
      (fun _ => true) 1 1 0 0 3
      (by intro i j hij hi; simp only [decide_eq_true_eq] at hi ⊢; omega)
      (by decide) 1 0 0 (by decide)
  · exact C1_cancellation_observed.2 ⟨2000, 0, 1, 100⟩ (fun _ => true) 4 1000 0 0
      (by decide) (Or.inl rfl)

/-! ## Claim C2 -/

/-- C2, counterexample.  `runBigKeyCycles` never reads `state.EndTime`
(its only exits are the four `stopChan` receives), so an execution that is
never stopped keeps ticking past any deadline: with the signal never fired
the loop emits a `SET` in every cycle — in particular it ticks even when
the deadline already passed before the run began, where the claim demands
self-termination with no ticks. -/
theorem C2_counterexample :
    BKEvent.set 1 0 0 ∈ bkLoop (fun _ => false) (fun _ _ => true) (fun _ => true) 1 2 0 0 ∧
    bkLoop (fun _ => false) (fun _ _ => true) (fun _ => true) 1 2 0 0 =
      [BKEvent.set 1 0 0, BKEvent.del 0 0, BKEvent.set 5 1 0, BKEvent.del 1 0] :=
  ⟨by decide, by decide⟩

/-- C2, amended: the memory-fill loop re-checks its deadline at the head of
every iteration and performs no tick at or after it — a state already past
the deadline produces no ticks at all, and every tick of any run happens
strictly before the deadline; the big-key loop never consults the deadline
and relies on the external stop call. -/
theorem C2_deadline_authoritative :
    (∀ (cfg : FillCfg) (setOk : Nat → Bool) (fuel now totalBytes keyCounter : Nat),
        now ≥ cfg.endTime → fillLoop cfg setOk fuel now totalBytes keyCounter = [])
    ∧ (∀ (cfg : FillCfg) (setOk : Nat → Bool) (fuel now totalBytes keyCounter t : Nat),
        t ∈ fillLoop cfg setOk fuel now totalBytes keyCounter → t < cfg.endTime) := by
  constructor
  · intro cfg setOk fuel now totalBytes keyCounter h
    cases fuel with
    | zero => rfl
    | succ fuel => simp [fillLoop, Nat.not_lt.mpr h]
  · intro cfg setOk fuel
    induction fuel with
    | zero => intro now totalBytes keyCounter t h; simp [fillLoop] at h
    | succ fuel ih =>
        intro now totalBytes keyCounter t h
        by_cases h1 : now < cfg.endTime
        · simp only [fillLoop, if_pos h1] at h
          by_cases h2 : cfg.maxBytes > 0 ∧ totalBytes ≥ cfg.maxBytes
          · simp [h2] at h
          · simp only [h2, if_false, ite_false] at h
            by_cases hok : setOk keyCounter
            · simp only [hok, if_true, ite_true, if_pos trivial, List.mem_cons] at h
              rcases h with h | h
              · exact h ▸ h1
              · exact ih _ _ _ _ h
            · simp only [hok, Bool.false_eq_true, if_false, ite_false,
                List.mem_cons] at h
              rcases h with h | h
              · exact h ▸ h1
              · exact ih _ _ _ _ h
        · simp [fillLoop, h1] at h

/-- C2 witness: a memory-fill state exactly at its deadline performs no
tick, and the tick a state one unit before the deadline performs lies
before the deadline. -/
theorem C2_witness :
    fillLoop ⟨100, 0, 1, 10⟩ (fun _ => true) 3 100 0 0 = [] ∧ (99 : Nat) < 100 := by
  constructor
  · exact C2_deadline_authoritative.1 ⟨100, 0, 1, 10⟩ (fun _ => true) 3 100 0 0
      (by decide)
  · exact C2_deadline_authoritative.2 ⟨100, 0, 1, 10⟩ (fun _ => true) 1 99 0 0 99
      (by decide)

/-! ## Claim C3 -/

/-- C3, counterexample.  Memory-fill cleanup is list-based, not
enumerative: `Stop` deletes only `state.CreatedKeys` and never scans for
the execution's prefix (compare attack_big_key.go lines 418-441), while the
background goroutine appends the keys it creates to its own in-memory copy
of the state, which never reaches the serialized state a later `Stop` call
receives.  With a prefix-matching key on the target and an empty
`CreatedKeys` list, the key survives a fully successful stop. -/
theorem C3_counterexample :
    (memFillStop true (fun _ => true) ["steadybit-memfill-ab-0"] []).1 =
      ["steadybit-memfill-ab-0"] ∧
    strHasPref "steadybit-memfill-ab-0" "steadybit-memfill-ab-" = true :=
  ⟨rfl, by decide⟩

/-- C3, amended: the big-key stop re-scans the target for every key
matching the execution prefix and deletes each one, independent of what
the run tracked — provided the cleanup client, the scan and its deletes
succeed, no prefix-matching key survives, no matter which per-tick deletes
failed during the run; memory-fill cleanup deletes only the keys listed in
the state's `CreatedKeys` and gives no such guarantee. -/
theorem C3_enumerative_cleanup :
    ∀ (reg : Reg BKStats) (execId : String) (delOk : String → Bool)
      (store : List String) (pref x : String),
      (∀ k, delOk k = true) → strHasPref x pref = true →
      x ∉ (bigKeyStop reg execId true true delOk store pref).2.1 := by
  intro reg execId delOk store pref x hdel hx hmem
  simp only [bigKeyStop, Bool.not_true, Bool.false_eq_true, if_false, ite_false] at hmem
  rw [foldl_delStep_mem delOk (storeScan store pref) store 0 x
    (fun k _ => hdel k)] at hmem
  exact hmem.2 (by
    simp only [storeScan, List.mem_filter]
    exact ⟨hmem.1, hx⟩)

set_option maxRecDepth 8192 in
/-- C3 witness: a concrete store holding one leftover key with the
execution prefix; big-key stop removes it. -/
theorem C3_witness :
    "steadybit-bigkey-ab-cycle0-key0" ∉
      (bigKeyStop ([] : Reg BKStats) "ab" true true (fun _ => true)
        ["steadybit-bigkey-ab-cycle0-key0"] "steadybit-bigkey-ab-").2.1 :=
  C3_enumerative_cleanup [] "ab" (fun _ => true)
    ["steadybit-bigkey-ab-cycle0-key0"] "steadybit-bigkey-ab-"
    "steadybit-bigkey-ab-cycle0-key0" (fun _ => rfl) (by decide)

/-! ## Claim C4 -/

/-- C4, counterexample.  The `ThresholdExceeded` flag is persisted in the
serialized state, so a single violating sample fails the check at the end
of the window even though the metric fully recovered: with an absolute
threshold of 10 connections and a window ending at 100, a poll at time 50
observing 20 connections only warns, but the final poll at time 100
observing 1 connection (back under the threshold) emits the hard failure —
the claim says a recovered single violation must not fail the check. -/
theorem C4_counterexample :
    ((connCheckStatus ⟨10, 0, 100, false, 0⟩ 50 true true 20 0).2).failed = false ∧
    ((connCheckStatus ⟨10, 0, 100, false, 0⟩ 50 true true 20 0).2).warned = true ∧
    ((connCheckStatus (connCheckStatus ⟨10, 0, 100, false, 0⟩ 50 true true 20 0).1
        100 true true 1 0).2).failed = true ∧
    (1 : Int) ≤ 10 :=
  ⟨by decide, by decide, by decide, by decide⟩

/-- C4, amended: both checks convert a violation into a hard failure only
when `completed` is also true — before the deadline a violating sample only
warns; but the violated flag is sticky, so once any sample violated, the
check fails at every completed poll even if the metric recovered (hence a
sustained violation fails as well). -/
theorem C4_failure_gating :
    (∀ (s : ConnCheckState) (now cc mc : Int), now < s.endTime →
        ((connCheckStatus s now true true cc mc).2).failed = false)
    ∧ (∀ (s : ConnCheckState) (now cc mc : Int), now ≥ s.endTime →
        s.thresholdExceeded = true →
        ((connCheckStatus s now true true cc mc).2).failed = true)
    ∧ (∀ (s : HitRateState) (now h m : Int), now < s.endTime →
        ((hitRateStatus s now true true h m).2).failed = false)
    ∧ (∀ (s : HitRateState) (now h m : Int), now ≥ s.endTime →
        s.thresholdExceeded = true →
        ((hitRateStatus s now true true h m).2).failed = true) := by
  refine ⟨?_, ?_, ?_, ?_⟩
  · intro s now cc mc h
    have hc : ¬(now ≥ s.endTime) := not_le.mpr h
    simp [connCheckStatus, hc]
  · intro s now cc mc h1 h2
    simp [connCheckStatus, h1, h2, apply_ite ConnCheckState.thresholdExceeded]
  · intro s now h m hlt
    have hc : ¬(now ≥ s.endTime) := not_le.mpr hlt
    simp [hitRateStatus, hc]
  · intro s now h m h1 h2
    simp [hitRateStatus, h1, h2, apply_ite HitRateState.thresholdExceeded]

/-- C4 witness: before the deadline a violating sample does not fail, and a
completed poll with the sticky flag set fails, for both checks. -/
theorem C4_witness :
    ((connCheckStatus ⟨10, 0, 100, false, 0⟩ 50 true true 20 0).2).failed = false ∧
    ((connCheckStatus ⟨10, 0, 100, true, 0⟩ 100 true true 1 0).2).failed = true ∧
    ((hitRateStatus ⟨80, 100, false, 100, 0, 0, true⟩ 50 true true 0 10).2).failed = false ∧
    ((hitRateStatus ⟨80, 100, true, 100, 0, 0, true⟩ 100 true true 10 0).2).failed = true :=
  ⟨C4_failure_gating.1 ⟨10, 0, 100, false, 0⟩ 50 20 0 (by decide),
   C4_failure_gating.2.1 ⟨10, 0, 100, true, 0⟩ 100 1 0 (by decide) rfl,
   C4_failure_gating.2.2.1 ⟨80, 100, false, 100, 0, 0, true⟩ 50 0 10 (by decide),
   C4_failure_gating.2.2.2 ⟨80, 100, true, 100, 0, 0, true⟩ 100 10 0 (by decide) rfl⟩

/-! ## Claim C5 -/

/-- C5, counterexample.  Both the memory-fill and the maxmemory-limit stop
return a Go error when the cleanup/restore client cannot be created
(attack_memory_fill.go lines 254-258, attack_maxmemory_limit.go lines
242-247), contradicting "failures encountered during cleanup/restore …
never cause the stop call itself to return an error". -/
theorem C5_counterexample :
    (memFillStop false (fun _ => true) [] []).2.1 = true ∧
    (maxmemStop false "100mb" "noeviction" "noeviction" true true).goError = true :=
  ⟨rfl, rfl⟩

/-- C5, amended: the big-key and cache-penetration stops never return a Go
error on any path, and once the cleanup/restore client exists the
memory-fill and maxmemory stops surface every remaining failure only as a
warning; failure to create that client, however, makes the memory-fill and
maxmemory stop calls themselves return an error. -/
theorem C5_cleanup_nonfatal :
    (∀ (reg : Reg BKStats) (execId : String) (createOk scanOk : Bool)
        (delOk : String → Bool) (store : List String) (pref : String),
        (bigKeyStop reg execId createOk scanOk delOk store pref).2.2.goError = false)
    ∧ (∀ (cancels : Reg Unit) (counts : Reg Int) (key : String),
        (cachePenStop cancels counts key).2.2.goError = false)
    ∧ (∀ (delOk : String → Bool) (store keys : List String),
        (memFillStop true delOk store keys).2.1 = false)
    ∧ (∀ (o1 o2 np : String) (s1 s2 : Bool),
        (maxmemStop true o1 o2 np s1 s2).goError = false) := by
  refine ⟨?_, ?_, ?_, ?_⟩
  · intro reg execId createOk scanOk delOk store pref
    cases createOk <;> cases scanOk <;> simp [bigKeyStop]
  · intro cancels counts key
    rfl
  · intro delOk store keys
    rfl
  · intro o1 o2 np s1 s2
    rfl

/-! ## Claim C6 -/

/-- C6, counterexample.  When the target is unreachable, the
connection-count and hit-rate `Status` calls return a result whose embedded
`ActionKitError` carries status `Failed` — a failure outcome, not a
warning or violation message. -/
theorem C6_counterexample :
    ((connCheckStatus ⟨0, 0, 100, false, 0⟩ 50 false true 0 0).2).failed = true ∧
    ((connCheckStatus ⟨0, 0, 100, false, 0⟩ 50 false true 0 0).2).warned = false ∧
    ((hitRateStatus ⟨80, 100, false, 100, 0, 0, true⟩ 50 false true 0 0).2).failed = true :=
  ⟨by decide, by decide, by decide⟩

/-- C6, amended: every status call returns a nil Go error on every path —
an unreachable target never aborts the poll — but the unreachability is
reported differently per action: the two checks embed an `ActionKitError`
with status `Failed` in the result, while the memory-fill attack returns a
bare completed flag with no error marker at all. -/
theorem C6_status_best_effort :
    (∀ (s : ConnCheckState) (now : Int) (createOk infoOk : Bool) (cc mc : Int),
        ((connCheckStatus s now createOk infoOk cc mc).2).goError = false)
    ∧ (∀ (s : HitRateState) (now : Int) (createOk infoOk : Bool) (h m : Int),
        ((hitRateStatus s now createOk infoOk h m).2).goError = false)
    ∧ (∀ (now endTime : Int) (createOk : Bool),
        (memFillStatus now endTime createOk).goError = false)
    ∧ (∀ (now endTime : Int),
        memFillStatus now endTime false =
          ⟨decide (now ≥ endTime), false, false, false⟩) := by
  refine ⟨?_, ?_, ?_, ?_⟩
  · intro s now createOk infoOk cc mc
    cases createOk <;> cases infoOk <;>
      simp [connCheckStatus,
        apply_ite (fun p : ConnCheckState × CheckOutcome => p.2.goError)]
  · intro s now createOk infoOk h m
    cases createOk <;> cases infoOk <;>
      simp [hitRateStatus,
        apply_ite (fun p : HitRateState × HitRateRes => p.2.goError)]
  · intro now endTime createOk
    cases createOk <;> rfl
  · intro now endTime
    rfl

/-! ## Claim C7 -/

theorem bigKeyStop_lookup_none (reg : Reg BKStats) (execId : String)
    (createOk scanOk : Bool) (delOk : String → Bool) (store : List String)
    (pref : String) :
    mapLookup ((bigKeyStop reg execId createOk scanOk delOk store pref).1)
      execId = none := by
  rcases hm : mapLookup reg execId with _ | st <;>
    cases createOk <;> cases scanOk <;>
    simp [bigKeyStop, hm, mapLookup_delete_self]

/-- C7: stop is idempotent for all three registry-based attacks.  A second
big-key stop finds no registry entry, so it neither closes the stop channel
again (no close-of-closed-channel panic) nor errors, and leaves the
registry unchanged; a second cache-penetration stop finds no cancel
function, so none is invoked, and deleting the absent map entries is a
no-op; a second memory-fill stop re-deletes the already-deleted keys,
which Redis tolerates (`DEL` of an absent key returns no error), leaving
the keyspace unchanged and returning no error. -/
theorem C7_stop_idempotent :
    (∀ (reg : Reg BKStats) (execId : String) (createOk₁ createOk₂ scanOk : Bool)
        (delOk : String → Bool) (store : List String) (pref : String),
        (bigKeyStop (bigKeyStop reg execId createOk₁ scanOk delOk store pref).1
            execId createOk₂ scanOk delOk
            (bigKeyStop reg execId createOk₁ scanOk delOk store pref).2.1
            pref).2.2.goError = false ∧
        (bigKeyStop (bigKeyStop reg execId createOk₁ scanOk delOk store pref).1
            execId createOk₂ scanOk delOk
            (bigKeyStop reg execId createOk₁ scanOk delOk store pref).2.1
            pref).2.2.closedSignal = false ∧
        (bigKeyStop (bigKeyStop reg execId createOk₁ scanOk delOk store pref).1
            execId createOk₂ scanOk delOk
            (bigKeyStop reg execId createOk₁ scanOk delOk store pref).2.1
            pref).2.2.doubleClose = false ∧
        (bigKeyStop (bigKeyStop reg execId createOk₁ scanOk delOk store pref).1
            execId createOk₂ scanOk delOk
            (bigKeyStop reg execId createOk₁ scanOk delOk store pref).2.1
            pref).1 = (bigKeyStop reg execId createOk₁ scanOk delOk store pref).1)
    ∧ (∀ (cancels : Reg Unit) (counts : Reg Int) (key : String),
        (cachePenStop (cachePenStop cancels counts key).1
            (cachePenStop cancels counts key).2.1 key).2.2.cancelCalled = false ∧
        (cachePenStop (cachePenStop cancels counts key).1
            (cachePenStop cancels counts key).2.1 key).2.2.goError = false ∧
        (cachePenStop (cachePenStop cancels counts key).1
            (cachePenStop cancels counts key).2.1 key).1 =
          (cachePenStop cancels counts key).1 ∧
        (cachePenStop (cachePenStop cancels counts key).1
            (cachePenStop cancels counts key).2.1 key).2.1 =
          (cachePenStop cancels counts key).2.1)
    ∧ (∀ (store keys : List String),
        (memFillStop true (fun _ => true)
            (memFillStop true (fun _ => true) store keys).1 keys).1 =
          (memFillStop true (fun _ => true) store keys).1 ∧
        (memFillStop true (fun _ => true)
            (memFillStop true (fun _ => true) store keys).1 keys).2.1 = false) := by
  refine ⟨?_, ?_, ?_⟩
  · intro reg execId createOk₁ createOk₂ scanOk delOk store pref
    have hnone := bigKeyStop_lookup_none reg execId createOk₁ scanOk delOk store pref
    generalize hg : bigKeyStop reg execId createOk₁ scanOk delOk store pref = r1
      at hnone ⊢
    cases createOk₂ <;> cases scanOk <;>
      simp [bigKeyStop, hnone]
  · intro cancels counts key
    have h1 : mapLookup (mapDelete cancels key) key = none :=
      mapLookup_delete_self cancels key
    have h2 : mapLookup (mapDelete counts key) key = none :=
      mapLookup_delete_self counts key
    refine ⟨?_, rfl, ?_, ?_⟩
    · simp [cachePenStop, h1]
    · simp [cachePenStop, mapDelete_absent _ _ h1]
    · simp [cachePenStop, mapDelete_absent _ _ h2]
  · intro store keys
    refine ⟨?_, rfl⟩
    have habs : ∀ k ∈ keys, k ∉ (memFillStop true (fun _ => true) store keys).1 := by
      intro k hk hmem
      simp only [memFillStop, Bool.not_true, Bool.false_eq_true, if_false,
        ite_false] at hmem
      rw [foldl_delStep_mem (fun _ => true) keys store 0 k (fun _ _ => rfl)] at hmem
      exact hmem.2 hk
    simp only [memFillStop, Bool.not_true, Bool.false_eq_true, if_false, ite_false]
    exact foldl_delStep_absent (fun _ => true) keys _ 0 habs

/-! ## Claim C8 -/

/-- C8, counterexample.  Starting a big-key execution whose id already sits
in `runningAttacks` performs a plain map assignment: the existing entry is
silently replaced with the new stats handle, the call neither fails nor
preserves the old entry — there is no `DuplicateKeyError` anywhere in the
code. -/
theorem C8_counterexample :
    mapLookup (bkRegister [("k", bkNewStats)] "k" ⟨true, 5, 6, 7⟩) "k" =
      some ⟨true, 5, 6, 7⟩ ∧
    bkRegister [("k", bkNewStats)] "k" ⟨true, 5, 6, 7⟩ = [("k", ⟨true, 5, 6, 7⟩)] :=
  ⟨by decide, by decide⟩

/-- C8, amended: registering a running execution is an unconditional map
assignment — it always succeeds and installs the new handle under the key,
silently replacing any entry already present. -/
theorem C8_register_replaces :
    ∀ (reg : Reg BKStats) (execId : String) (stats : BKStats),
      mapLookup (bkRegister reg execId stats) execId = some stats :=
  fun reg execId stats => mapLookup_insert_self reg execId stats

/-! ## Claim C9 -/

set_option maxRecDepth 8192 in
/-- C9, counterexample.  Connection-exhaustion registry keys are
`RedisURL-nanotime`, but `Stop` selects the first entry whose key merely
starts with the state's URL.  With two executions against the same target
(entries `...-1` holding connection 10 and `...-2` holding connection 20),
the stop call of the execution holding connection 20 removes the `...-1`
entry and closes connection 10 — another execution's held resources. -/
theorem C9_counterexample :
    connExhStop [("redis://h:6379-1", [10]), ("redis://h:6379-2", [20])]
        "redis://h:6379" =
      ([("redis://h:6379-2", [20])], [10]) ∧
    ([10] : List Nat) ≠ [20] :=
  ⟨by decide, by decide⟩

/-- C9, amended: executions registered under distinct keys occupy
independent registry entries, and the big-key stop (which addresses the
registry by its own execution id) leaves every other key's entry
untouched; the connection-exhaustion stop, however, addresses the registry
only by URL prefix, so among several executions against the same target a
stop call may remove and close another execution's connections. -/
theorem C9_independent_entries :
    (∀ (reg : Reg (List Nat)) (k1 k2 : String) (c1 c2 : List Nat), k1 ≠ k2 →
        mapLookup (connExhRegister (connExhRegister reg k1 c1) k2 c2) k1 = some c1 ∧
        mapLookup (connExhRegister (connExhRegister reg k1 c1) k2 c2) k2 = some c2)
    ∧ (∀ (reg : Reg BKStats) (e e' : String) (createOk scanOk : Bool)
        (delOk : String → Bool) (store : List String) (pref : String), e ≠ e' →
        mapLookup ((bigKeyStop reg e createOk scanOk delOk store pref).1) e' =
          mapLookup reg e') := by
  constructor
  · intro reg k1 k2 c1 c2 hne
    simp only [connExhRegister]
    constructor
    · rw [mapLookup_insert_other _ k2 k1 c2 (Ne.symm hne)]
      exact mapLookup_insert_self reg k1 c1
    · exact mapLookup_insert_self _ k2 c2
  · intro reg e e' createOk scanOk delOk store pref hne
    rcases hm : mapLookup reg e with _ | st <;>
      cases createOk <;> cases scanOk <;>
      simp [bigKeyStop, hm, mapLookup_delete_other _ _ _ hne]

/-- C9 witness: two concrete distinct keys occupy independent entries, and
a big-key stop for one id leaves the other id's binding intact. -/
theorem C9_witness :
    (mapLookup (connExhRegister (connExhRegister [] "u-1" [10]) "u-2" [20]) "u-1" =
        some [10] ∧
      mapLookup (connExhRegister (connExhRegister [] "u-1" [10]) "u-2" [20]) "u-2" =
        some [20]) ∧
    mapLookup ((bigKeyStop [("a", bkNewStats), ("b", bkNewStats)] "a" true true
        (fun _ => true) [] "p").1) "b" =
      mapLookup [("a", bkNewStats), ("b", bkNewStats)] "b" :=
  ⟨C9_independent_entries.1 [] "u-1" "u-2" [10] [20] (by decide),
   C9_independent_entries.2 [("a", bkNewStats), ("b", bkNewStats)] "a" "b" true true
     (fun _ => true) [] "p" (by decide)⟩

/-! ## Claim C10 -/

/-- C10, counterexample.  `Prepare` puts no upper bound on the configured
minimum hit rate, and for a poll with zero observed requests the computed
rate is exactly 100; with `MinHitRate = 150` that sample is nevertheless
recorded as a threshold violation (`ThresholdExceeded` set, warning
emitted), contradicting "no threshold violation is recorded for that
sample". -/
theorem C10_counterexample :
    ((hitRateStatus ⟨150, 100, false, 100, 0, 0, true⟩ 50 true true 0 0).2).hitRate =
      100 ∧
    ((hitRateStatus ⟨150, 100, false, 100, 0, 0, true⟩ 50 true true 0
        0).1).thresholdExceeded = true ∧
    ((hitRateStatus ⟨150, 100, false, 100, 0, 0, true⟩ 50 true true 0 0).2).warned =
      true :=
  ⟨by decide, by decide, by decide⟩

/-- C10, amended: for a reachable target, a poll observing zero requests —
cumulatively on the first poll or as a delta afterwards — reports exactly
100% and, provided the configured minimum hit rate does not exceed 100%,
records no violation for that sample: no warning is emitted and the
persisted `ThresholdExceeded` flag keeps its previous value. -/
theorem C10_zero_requests :
    ∀ (s : HitRateState) (now h m : Int),
      s.minHitRate ≤ 100 →
      ((s.firstCheck = true ∧ h + m = 0) ∨
        (s.firstCheck = false ∧ (h - s.lastHits) + (m - s.lastMisses) = 0)) →
      ((hitRateStatus s now true true h m).2).hitRate = 100 ∧
      ((hitRateStatus s now true true h m).2).warned = false ∧
      ((hitRateStatus s now true true h m).1).thresholdExceeded =
        s.thresholdExceeded := by
  intro s now h m hmin hzero
  have hnv : ¬((100 : ℚ) < s.minHitRate) := not_lt.mpr hmin
  rcases hzero with ⟨hfc, htot⟩ | ⟨hfc, htot⟩ <;>
    by_cases hobs : (100 : ℚ) < s.minObservedRate <;>
    by_cases hte : s.thresholdExceeded <;>
    by_cases hcomp : now ≥ s.endTime <;>
    simp [hitRateStatus, hfc, htot, hnv, hobs, hte, hcomp]

/-- C10 witness: a first poll with zero hits and misses under an 80%
threshold reports 100% and records nothing. -/
theorem C10_witness :
    ((hitRateStatus ⟨80, 100, false, 100, 0, 0, true⟩ 50 true true 0 0).2).hitRate =
      100 ∧
    ((hitRateStatus ⟨80, 100, false, 100, 0, 0, true⟩ 50 true true 0 0).2).warned =
      false ∧
    ((hitRateStatus ⟨80, 100, false, 100, 0, 0, true⟩ 50 true true 0
        0).1).thresholdExceeded = false :=
  C10_zero_requests ⟨80, 100, false, 100, 0, 0, true⟩ 50 0 0 (by norm_num)
    (Or.inl ⟨rfl, rfl⟩)

end ExtRedis
